import Mathlib

/-!
Verification of tools/geiger-count.py.

The script reads a cargo-geiger JSON report from standard input, aggregates
unsafe-construct counts, prints a report, and optionally compares the total
against a baseline file (`--check`).

We shallow-embed the script over a JSON value type `JVal`.  Python dynamic
behaviour is modelled explicitly: `dict.get` on a non-dict raises
`AttributeError`, `sum` over non-numbers raises `TypeError`, truthiness follows
Python's rules, and unhandled exceptions surface as a `fault` termination.
`json.loads` is standard-library code outside the repository, so parsing is an
abstract parameter of the world (`World.parse`); the baseline file is modelled
as the optional contents of the single file named by `--check`.
-/

namespace Geiger

/-- JSON values as produced by a JSON parser.  (Floating-point numbers are not
modelled; the analyzer report's counts are integers.) -/
inductive JVal where
  | jnull : JVal
  | jbool : Bool → JVal
  | jint : Int → JVal
  | jstr : String → JVal
  | jarr : List JVal → JVal
  | jobj : List (String × JVal) → JVal

/-- Unhandled Python exceptions that the script can raise (it catches none of
these). -/
inductive PyFault where
  | attributeError : String → PyFault
  | typeError : String → PyFault
  | valueError : String → PyFault

/-- Python truthiness of a JSON value (`bool(x)`). -/
def pyTruthy : JVal → Bool
  | .jnull => false
  | .jbool b => b
  | .jint n => n != 0
  | .jstr s => s ≠ ""
  | .jarr xs => !xs.isEmpty
  | .jobj fs => !fs.isEmpty

/-- `x.get(key, default)`: only dicts have `.get`; every other value raises
`AttributeError`. -/
def pyGet (v : JVal) (key : String) (dflt : JVal) : Except PyFault JVal :=
  match v with
  | .jobj fs => .ok ((fs.lookup key).getD dflt)
  | _ => .error (.attributeError "get")

/-- `for x in v`: lists iterate elements, dicts iterate keys, strings iterate
one-character strings; other values raise `TypeError`. -/
def pyIter : JVal → Except PyFault (List JVal)
  | .jarr xs => .ok xs
  | .jobj fs => .ok (fs.map (fun kv => .jstr kv.1))
  | .jstr s => .ok (s.toList.map (fun c => .jstr (String.singleton c)))
  | _ => .error (.typeError "object is not iterable")

/-- `v.values()`: only dicts have `.values`. -/
def pyValues : JVal → Except PyFault (List JVal)
  | .jobj fs => .ok (fs.map (fun kv => kv.2))
  | _ => .error (.attributeError "values")

/-- Numeric coercion used by `sum`: ints are themselves, bools are 0/1,
everything else raises `TypeError`. -/
def pyNum : JVal → Except PyFault Int
  | .jint n => .ok n
  | .jbool b => .ok (if b then 1 else 0)
  | _ => .error (.typeError "unsupported operand type for +")

/-- One addition performed by `sum`. -/
def pySumStep (acc : Int) (v : JVal) : Except PyFault Int :=
  (pyNum v).map (fun n => acc + n)

/-- `sum(vs)` with start value 0. -/
def pySum (vs : List JVal) : Except PyFault Int :=
  vs.foldlM pySumStep 0

/-- One iteration of the aggregation loop of `main`, over accumulator
`(total, rows)`:

    if not pkg.get("is_local", False):
        continue
    name = pkg.get("package", {}).get("name", "?")
    used = pkg.get("unsafety", {}).get("used", {})
    count = sum(used.values())
    if count > 0:
        rows.append((name, count))
    total += count
-/
def pkgStep (acc : Int × List (JVal × Int)) (pkg : JVal) :
    Except PyFault (Int × List (JVal × Int)) := do
  let isLoc ← pyGet pkg "is_local" (.jbool false)
  if !(pyTruthy isLoc) then
    return acc
  else
    let po ← pyGet pkg "package" (.jobj [])
    let name ← pyGet po "name" (.jstr "?")
    let uo ← pyGet pkg "unsafety" (.jobj [])
    let used ← pyGet uo "used" (.jobj [])
    let vals ← pyValues used
    let count ← pySum vals
    let rows := if 0 < count then acc.2 ++ [(name, count)] else acc.2
    return (acc.1 + count, rows)

/-- The whole aggregation:

    total = 0
    rows = []
    for pkg in data.get("packages", []):
        ...
-/
def aggregate (data : JVal) : Except PyFault (Int × List (JVal × Int)) := do
  let pkgsV ← pyGet data "packages" (.jarr [])
  let pkgs ← pyIter pkgsV
  pkgs.foldlM pkgStep (0, [])

/-- Code-point comparison of strings as lists of characters: Python's `<` on
`str`. -/
def strLt : List Char → List Char → Bool
  | [], [] => false
  | [], _ :: _ => true
  | _ :: _, [] => false
  | a :: as, b :: bs => if a < b then true else if b < a then false else strLt as bs

/-- Python's `<=` on `(str, int)` tuples: lexicographic, name first, then
count. -/
def rowLe (x y : String × Int) : Bool :=
  strLt x.1.toList y.1.toList || (x.1 == y.1 && decide (x.2 ≤ y.2))

/-- Insert into a sorted list, keeping earlier-inserted equals first. -/
def pyInsert (le : α → α → Bool) (a : α) : List α → List α
  | [] => [a]
  | b :: bs => if le a b then a :: b :: bs else b :: pyInsert le a bs

/-- Insertion sort.  Python's `sorted` is a stable sort by `<`-comparisons;
`rowLe` is total and antisymmetric (mutually-`le` rows are equal), so the
sorted permutation is unique and insertion sort computes exactly
`sorted(rows)`. -/
def pySorted (le : α → α → Bool) : List α → List α
  | [] => []
  | a :: as => pyInsert le a (pySorted le as)

/-- Extract the rows whose names are strings (the only case a well-formed
report can produce). -/
def asStrRows : List (JVal × Int) → Option (List (String × Int))
  | [] => some []
  | (.jstr s, c) :: rs => (asStrRows rs).map (fun t => (s, c) :: t)
  | _ => none

/-- `str(x)` for scalar values, as interpolated by an f-string. -/
def scalarStr : JVal → Option String
  | .jnull => some "None"
  | .jbool true => some "True"
  | .jbool false => some "False"
  | .jint n => some (toString n)
  | .jstr s => some s
  | _ => none

/-- One printed row: `f"  {name}: {count}"`. -/
def fmtRow (r : String × Int) : String :=
  "  " ++ r.1 ++ ": " ++ toString r.2

/-- The per-package lines:

    for name, count in sorted(rows):
        print(f"  {name}: {count}")

`sorted` compares `(name, count)` tuples; with string names that is the stable
lexicographic sort.  A single row is printed without any comparison.  Sorting
rows with names of mixed (or unordered) types raises `TypeError`; names that
are non-string scalars in a multi-row report are modelled as that fault as
well, a corner unreachable from well-formed reports. -/
def renderRows (rows : List (JVal × Int)) : Except PyFault (List String) :=
  match asStrRows rows with
  | some srows => .ok ((pySorted rowLe srows).map fmtRow)
  | none =>
    match rows with
    | [(n, c)] =>
      match scalarStr n with
      | some s => .ok ["  " ++ s ++ ": " ++ toString c]
      | none => .error (.typeError "unorderable name")
    | _ => .error (.typeError "unorderable types in sort")

/-- Whitespace stripped by Python's `str.strip()` (ASCII portion). -/
def isPySpace (c : Char) : Bool :=
  c = ' ' || c = '\t' || c = '\n' || c = '\r' || c = '\x0b' || c = '\x0c'

/-- `s.strip()`. -/
def pyStrip (s : String) : String :=
  String.mk (((s.toList.dropWhile isPySpace).reverse.dropWhile isPySpace).reverse)

/-- Digit run of a Python integer literal: digits with single underscores
allowed between digits. -/
def pyDigits (acc : Nat) : List Char → Option Nat
  | [] => some acc
  | c :: cs =>
    if c.isDigit then pyDigits (10 * acc + (c.toNat - 48)) cs
    else if c = '_' then
      match cs with
      | [] => none
      | c2 :: cs2 =>
        if c2.isDigit then pyDigits (10 * acc + (c2.toNat - 48)) cs2 else none
    else none

/-- `int(s)` on an already-stripped string: optional sign, then a digit run. -/
def pyParseInt (s : String) : Option Int :=
  let core : List Char → Option Nat := fun l =>
    match l with
    | c :: _ => if c.isDigit then pyDigits 0 l else none
    | [] => none
  match s.toList with
  | '+' :: rest => (core rest).map (fun n => (n : Int))
  | '-' :: rest => (core rest).map (fun n => -(n : Int))
  | rest => (core rest).map (fun n => (n : Int))

/-- One hexadecimal digit, lower case. -/
def hexDigit (n : Nat) : Char :=
  if n < 10 then Char.ofNat (48 + n) else Char.ofNat (87 + n)

/-- `repr(s)` for a Python string (ASCII portion): quote choice, backslash and
quote escapes, `\n`/`\r`/`\t`, and `\xhh` for other control characters. -/
def pyRepr (s : String) : String :=
  let q : Char := if s.toList.contains '\'' && !(s.toList.contains '"') then '"' else '\''
  let esc : Char → String := fun c =>
    if c = '\\' then "\\\\"
    else if c = q then String.mk ['\\', q]
    else if c = '\n' then "\\n"
    else if c = '\r' then "\\r"
    else if c = '\t' then "\\t"
    else if c.toNat < 32 || c.toNat = 127 then
      String.mk ['\\', 'x', hexDigit (c.toNat / 16), hexDigit (c.toNat % 16)]
    else String.singleton c
  String.singleton q ++ String.join (s.toList.map esc) ++ String.singleton q

/-- Diagnostics printed on empty input. -/
def emptyErrLines : List String :=
  ["ERROR: cargo-geiger produced empty output.",
   "  Check that cargo-geiger is installed: cargo install cargo-geiger",
   "  Check that the workspace compiles: cargo check --workspace"]

/-- First diagnostic line on malformed JSON, `e` the parser's message. -/
def invalidLine1 (e : String) : String :=
  "ERROR: cargo-geiger produced invalid JSON: " ++ e

/-- Second diagnostic line on malformed JSON: `f"  First 200 chars of output: {raw[:200]!r}"`. -/
def invalidLine2 (raw : String) : String :=
  "  First 200 chars of output: " ++ pyRepr (raw.take 200)

/-- `f"Workspace unsafe count: {total}"`. -/
def headerLine (total : Int) : String :=
  "Workspace unsafe count: " ++ toString total

/-- `f"FAIL: count {total} exceeds baseline {baseline}"`. -/
def failLine (total baseline : Int) : String :=
  "FAIL: count " ++ toString total ++ " exceeds baseline " ++ toString baseline

/-- `f"  If this is intentional: update .geiger-baseline with {total}"`. -/
def hintLine (total : Int) : String :=
  "  If this is intentional: update .geiger-baseline with " ++ toString total

/-- `f"OK: {total} <= baseline {baseline}"`. -/
def okLine (total baseline : Int) : String :=
  "OK: " ++ toString total ++ " <= baseline " ++ toString baseline

/-- `f"WARNING: baseline file not found; writing {total} to {args.check}"`. -/
def warnLine (total : Int) (path : String) : String :=
  "WARNING: baseline file not found; writing " ++ toString total ++ " to " ++ path

/-- Parsed command line: `--check BASELINE_FILE` is optional. -/
structure Args where
  check : Option String

/-- The world one invocation sees: standard input, the behaviour of
`json.loads` (standard-library code, abstracted), and the contents of the
baseline file named by `--check` (`none` when the file does not exist). -/
structure World where
  stdin : String
  parse : String → Except String JVal
  fs : Option String

/-- How the process ends: `sys.exit`/fall-off-the-end with a code, or an
uncaught exception. -/
inductive Term where
  | exit : Nat → Term
  | fault : PyFault → Term

/-- Observable outcome of one invocation: lines printed to stdout and stderr,
termination, and the final contents of the baseline file. -/
structure Outcome where
  stdout : List String
  stderr : List String
  term : Term
  fs : Option String

/-- The `--check` tail of `main` (executed only when `args.check` is truthy):

    try:
        with open(args.check) as f:
            baseline = int(f.read().strip())
        if total > baseline:
            print(...); print(...); sys.exit(1)
        print(f"OK: ...")
    except FileNotFoundError:
        print(f"WARNING: ...")
        with open(args.check, "w") as f:
            f.write(str(total))

`sys.exit` raises `SystemExit`, which the `except FileNotFoundError` clause
does not catch. -/
def baselineCheck (path : String) (total : Int) (out : List String) (fs : Option String) :
    Outcome :=
  match fs with
  | none =>
    { stdout := out ++ [warnLine total path], stderr := [], term := .exit 0,
      fs := some (toString total) }
  | some contents =>
    match pyParseInt (pyStrip contents) with
    | none =>
      { stdout := out, stderr := [], term := .fault (.valueError "invalid literal for int"),
        fs := some contents }
    | some baseline =>
      if baseline < total then
        { stdout := out ++ [failLine total baseline, hintLine total], stderr := [],
          term := .exit 1, fs := some contents }
      else
        { stdout := out ++ [okLine total baseline], stderr := [], term := .exit 0,
          fs := some contents }

/-- The whole of `main`, from reading stdin to termination. -/
def runMain (args : Args) (w : World) : Outcome :=
  let raw := w.stdin
  if pyStrip raw = "" then
    { stdout := [], stderr := emptyErrLines, term := .exit 1, fs := w.fs }
  else
    match w.parse raw with
    | .error e =>
      { stdout := [], stderr := [invalidLine1 e, invalidLine2 raw], term := .exit 1, fs := w.fs }
    | .ok data =>
      match aggregate data with
      | .error f => { stdout := [], stderr := [], term := .fault f, fs := w.fs }
      | .ok (total, rows) =>
        match renderRows rows with
        | .error f =>
          { stdout := [headerLine total], stderr := [], term := .fault f, fs := w.fs }
        | .ok rlines =>
          let out := headerLine total :: rlines
          match args.check with
          | none => { stdout := out, stderr := [], term := .exit 0, fs := w.fs }
          | some path =>
            if path = "" then { stdout := out, stderr := [], term := .exit 0, fs := w.fs }
            else baselineCheck path total out w.fs

/-! ### Spec-side definitions

The following definitions restate the data model of the specification (§3):
per-entry unsafe count as the sum of the `unsafety.used` values with
default-on-absence, the `"?"` name default, and the derived aggregation
result.  They are compared with the code-side `aggregate` above. -/

/-- Key lookup in a JSON mapping; `none` on non-mappings. -/
def objLookup (v : JVal) (key : String) : Option JVal :=
  match v with
  | .jobj fs => fs.lookup key
  | _ => none

/-- The entry's `is_local` flag (boolean, default false). -/
def entryLocal (pkg : JVal) : Bool :=
  match objLookup pkg "is_local" with
  | some (.jbool b) => b
  | _ => false

/-- The entry's `package.name` (string, default `"?"` if absent). -/
def entryName (pkg : JVal) : String :=
  match objLookup pkg "package" with
  | some po =>
    match objLookup po "name" with
    | some (.jstr s) => s
    | _ => "?"
  | none => "?"

/-- The entry's `unsafety.used` mapping (default empty). -/
def usedFields (pkg : JVal) : List (String × JVal) :=
  match objLookup pkg "unsafety" with
  | some u =>
    match objLookup u "used" with
    | some (.jobj fs) => fs
    | _ => []
  | none => []

/-- Integer value of a count (valid entries only hold integers here). -/
def toIntD : JVal → Int
  | .jint n => n
  | _ => 0

/-- Spec §4: the entry's unsafe count is the sum of all values of its
`unsafety.used` mapping, a missing or empty mapping contributing zero. -/
def entryCount (pkg : JVal) : Int :=
  ((usedFields pkg).map (fun kv => toIntD kv.2)).sum

/-- Row with the name wrapped back into a JSON string, as the code stores
it. -/
def jrow (x : String × Int) : JVal × Int := (.jstr x.1, x.2)

/-- Total over a package list: each entry with a true `is_local` flag
contributes its count. -/
def specTotalL : List JVal → Int
  | [] => 0
  | p :: ps => (if entryLocal p then entryCount p else 0) + specTotalL ps

/-- Rows over a package list: `(name, count)` for each entry with a true
`is_local` flag and strictly positive count, in encounter order. -/
def specRowsL : List JVal → List (String × Int)
  | [] => []
  | p :: ps =>
    (if entryLocal p then
      (if 0 < entryCount p then [(entryName p, entryCount p)] else [])
     else []) ++ specRowsL ps

/-- The top-level packages sequence (default empty). -/
def pkgsOf (d : JVal) : List JVal :=
  match objLookup d "packages" with
  | some (.jarr xs) => xs
  | _ => []

/-- A well-typed `is_local` field: absent or boolean. -/
def validLocal : Option JVal → Bool
  | none => true
  | some (.jbool _) => true
  | _ => false

/-- A well-typed `name` field: absent or string. -/
def validName : Option JVal → Bool
  | none => true
  | some (.jstr _) => true
  | _ => false

/-- A well-typed `package` field: absent, or a mapping with a well-typed
`name`. -/
def validPkgField : Option JVal → Bool
  | none => true
  | some (.jobj pfs) => validName (pfs.lookup "name")
  | _ => false

/-- A non-negative integer count. -/
def isNNInt : JVal → Bool
  | .jint n => decide (0 ≤ n)
  | _ => false

/-- A well-typed `used` field: absent, or a mapping to non-negative
integers. -/
def validUsed : Option JVal → Bool
  | none => true
  | some (.jobj ufs) => ufs.all (fun kv => isNNInt kv.2)
  | _ => false

/-- A well-typed `unsafety` field: absent, or a mapping with a well-typed
`used`. -/
def validUnsafety : Option JVal → Bool
  | none => true
  | some (.jobj ufs) => validUsed (ufs.lookup "used")
  | _ => false

/-- A Package Entry of the shape in spec §3 (every field optional). -/
def validEntry : JVal → Bool
  | .jobj fs =>
    validLocal (fs.lookup "is_local") && validPkgField (fs.lookup "package") &&
      validUnsafety (fs.lookup "unsafety")
  | _ => false

/-- An Analyzer Report of the shape in spec §3: a mapping whose `packages`
field, when present, is a sequence of Package Entries. -/
def validReport : JVal → Bool
  | .jobj fs =>
    match fs.lookup "packages" with
    | none => true
    | some (.jarr pkgs) => pkgs.all validEntry
    | some _ => false
  | _ => false

/-- Is the root value a JSON mapping? -/
def isObj : JVal → Bool
  | .jobj _ => true
  | _ => false

/-! ### Concrete fixtures

Reports and worlds used as witnesses and counterexamples. -/

/-- A parser behaviour that accepts any input as the fixed document `d`. -/
def parseAs (d : JVal) : String → Except String JVal := fun _ => .ok d

/-- A parser behaviour that rejects any input, with `json.JSONDecodeError`'s
message for empty-prefix garbage. -/
def parseFail : String → Except String JVal :=
  fun _ => .error "Expecting value: line 1 column 1 (char 0)"

/-- A report with a single non-local entry carrying 5 unsafe uses. -/
def c1data : JVal := .jobj [("packages", .jarr
  [.jobj [("is_local", .jbool false),
          ("unsafety", .jobj [("used", .jobj [("x", .jint 5)])])]])]

/-- The end-to-end example of spec §8: local `core` with 3, non-local
`vendor` with 5. -/
def exReport : JVal := .jobj [("packages", .jarr
  [ .jobj [("is_local", .jbool true), ("package", .jobj [("name", .jstr "core")]),
           ("unsafety", .jobj [("used", .jobj [("exprs", .jint 3)])])],
    .jobj [("is_local", .jbool false), ("package", .jobj [("name", .jstr "vendor")]),
           ("unsafety", .jobj [("used", .jobj [("exprs", .jint 5)])])] ])]

/-- Two local packages sharing the name `a`, encountered with counts 5 then
3. -/
def c7data : JVal := .jobj [("packages", .jarr
  [ .jobj [("is_local", .jbool true), ("package", .jobj [("name", .jstr "a")]),
           ("unsafety", .jobj [("used", .jobj [("exprs", .jint 5)])])],
    .jobj [("is_local", .jbool true), ("package", .jobj [("name", .jstr "a")]),
           ("unsafety", .jobj [("used", .jobj [("exprs", .jint 3)])])] ])]

/-- A world whose parser yields `c7data`. -/
def w7 : World := ⟨"x", parseAs c7data, none⟩

/-- A valid report whose total is 0: one local entry with an empty `used`
mapping and one non-local entry. -/
def c8data : JVal := .jobj [("packages", .jarr
  [ .jobj [("is_local", .jbool true), ("package", .jobj [("name", .jstr "z")]),
           ("unsafety", .jobj [("used", .jobj [])])],
    .jobj [("is_local", .jbool false)] ])]

/-! ### Helper lemmas -/

/-- Bind on a successful `Except` computation. -/
theorem bind_ok (a : α) (f : α → Except ε β) : (Except.ok a >>= f) = f a := rfl

/-- `sum` over integer values, with an arbitrary start. -/
theorem pySum_go (vs : List JVal) (h : ∀ v ∈ vs, isNNInt v = true) (acc : Int) :
    vs.foldlM pySumStep acc = .ok (acc + (vs.map toIntD).sum) := by
  induction vs generalizing acc with
  | nil => simp only [List.foldlM_nil, List.map_nil, List.sum_nil, add_zero]; rfl
  | cons v vs ih =>
    have hv := h v (List.mem_cons_self _ _)
    match v, hv with
    | .jint n, _ =>
      rw [List.foldlM_cons, show pySumStep acc (.jint n) = Except.ok (acc + n) from rfl,
        bind_ok, ih (fun x hx => h x (List.mem_cons_of_mem _ hx)) (acc + n)]
      simp [toIntD, add_assoc]

/-- `sum` over integer values computes the integer sum. -/
theorem pySum_ints (vs : List JVal) (h : ∀ v ∈ vs, isNNInt v = true) :
    pySum vs = .ok ((vs.map toIntD).sum) := by
  have := pySum_go vs h 0
  simpa [pySum] using this

/-- The `is_local` lookup of a well-typed entry evaluates to its
`entryLocal` flag. -/
theorem local_eval (fs : List (String × JVal)) (hL : validLocal (fs.lookup "is_local") = true) :
    pyGet (.jobj fs) "is_local" (.jbool false) = .ok (.jbool (entryLocal (.jobj fs))) := by
  cases hl : fs.lookup "is_local" with
  | none => simp [pyGet, entryLocal, objLookup, hl]
  | some v =>
    cases v <;> simp_all [validLocal, pyGet, entryLocal, objLookup]

/-- The `package.name` chain of a well-typed entry evaluates to its
`entryName`. -/
theorem pkg_name_eval (fs : List (String × JVal))
    (hP : validPkgField (fs.lookup "package") = true) :
    ∃ po, pyGet (.jobj fs) "package" (.jobj []) = .ok po ∧
      pyGet po "name" (.jstr "?") = .ok (.jstr (entryName (.jobj fs))) := by
  cases hpk : fs.lookup "package" with
  | none =>
    exact ⟨.jobj [], by simp [pyGet, hpk], by simp [pyGet, entryName, objLookup, hpk]⟩
  | some pv =>
    cases pv with
    | jobj pfs =>
      refine ⟨.jobj pfs, by simp [pyGet, hpk], ?_⟩
      cases hn : pfs.lookup "name" with
      | none => simp [pyGet, entryName, objLookup, hpk, hn]
      | some nv =>
        cases nv <;> simp_all [validPkgField, validName, pyGet, entryName, objLookup]
    | jnull => simp [validPkgField, hpk] at hP
    | jbool b => simp [validPkgField, hpk] at hP
    | jint n => simp [validPkgField, hpk] at hP
    | jstr s => simp [validPkgField, hpk] at hP
    | jarr xs => simp [validPkgField, hpk] at hP

/-- The `unsafety.used` chain of a well-typed entry evaluates, and summing its
values yields `entryCount`. -/
theorem used_eval (fs : List (String × JVal))
    (hU : validUnsafety (fs.lookup "unsafety") = true) :
    ∃ uo used vals, pyGet (.jobj fs) "unsafety" (.jobj []) = .ok uo ∧
      pyGet uo "used" (.jobj []) = .ok used ∧
      pyValues used = .ok vals ∧ pySum vals = .ok (entryCount (.jobj fs)) := by
  cases hu : fs.lookup "unsafety" with
  | none =>
    refine ⟨.jobj [], .jobj [], [], by simp [pyGet, hu], by simp [pyGet], by simp [pyValues], ?_⟩
    simp [pySum, List.foldlM, entryCount, usedFields, objLookup, hu]
    rfl
  | some uv =>
    cases uv with
    | jobj ufs =>
      cases huu : ufs.lookup "used" with
      | none =>
        refine ⟨.jobj ufs, .jobj [], [], by simp [pyGet, hu], by simp [pyGet, huu],
          by simp [pyValues], ?_⟩
        simp [pySum, List.foldlM, entryCount, usedFields, objLookup, hu, huu]
        rfl
      | some uuv =>
        cases uuv with
        | jobj usedfs =>
          refine ⟨.jobj ufs, .jobj usedfs, usedfs.map (fun kv => kv.2),
            by simp [pyGet, hu], by simp [pyGet, huu], by simp [pyValues], ?_⟩
          have hall : ∀ v ∈ usedfs.map (fun kv => kv.2), isNNInt v = true := by
            intro v hv
            obtain ⟨kv, hkv, rfl⟩ := List.mem_map.mp hv
            have : validUsed (ufs.lookup "used") = true := by
              simpa [validUnsafety, hu] using hU
            rw [huu] at this
            simp only [validUsed, List.all_eq_true] at this
            exact this kv hkv
          rw [pySum_ints _ hall]
          simp [entryCount, usedFields, objLookup, hu, huu, List.map_map]
          rfl
        | jnull => simp_all [validUnsafety, validUsed, hu, huu]
        | jbool b => simp_all [validUnsafety, validUsed, hu, huu]
        | jint n => simp_all [validUnsafety, validUsed, hu, huu]
        | jstr s => simp_all [validUnsafety, validUsed, hu, huu]
        | jarr xs => simp_all [validUnsafety, validUsed, hu, huu]
    | jnull => simp [validUnsafety, hu] at hU
    | jbool b => simp [validUnsafety, hu] at hU
    | jint n => simp [validUnsafety, hu] at hU
    | jstr s => simp [validUnsafety, hu] at hU
    | jarr xs => simp [validUnsafety, hu] at hU

/-- Loop body on a well-typed entry: non-local entries leave the accumulator
unchanged; local entries add their count and append a row exactly when the
count is positive. -/
theorem pkgStep_valid (pkg : JVal) (h : validEntry pkg = true) (t : Int)
    (r : List (JVal × Int)) :
    pkgStep (t, r) pkg =
      .ok (if entryLocal pkg then
             (t + entryCount pkg,
              r ++ (if 0 < entryCount pkg then [jrow (entryName pkg, entryCount pkg)] else []))
           else (t, r)) := by
  match pkg, h with
  | .jobj fs, h =>
    simp only [validEntry, Bool.and_eq_true] at h
    obtain ⟨⟨hL, hP⟩, hU⟩ := h
    unfold pkgStep
    rw [local_eval fs hL, bind_ok]
    cases hb : entryLocal (.jobj fs) with
    | false => simp only [pyTruthy, Bool.not_false, if_true]; rfl
    | true =>
      obtain ⟨po, h1, h2⟩ := pkg_name_eval fs hP
      obtain ⟨uo, used, vals, h3, h4, h5, h6⟩ := used_eval fs hU
      simp only [pyTruthy, Bool.not_true, Bool.false_eq_true, if_false]
      rw [h1, bind_ok, h2, bind_ok, h3, bind_ok, h4, bind_ok, h5, bind_ok, h6, bind_ok]
      by_cases hc : 0 < entryCount (.jobj fs)
      · simp [hc, jrow]
        rfl
      · simp [hc]
        rfl

/-- The aggregation fold over well-typed entries refines the spec-side total
and rows. -/
theorem foldl_valid (pkgs : List JVal) (h : pkgs.all validEntry = true) (t : Int)
    (r : List (JVal × Int)) :
    pkgs.foldlM pkgStep (t, r) =
      .ok (t + specTotalL pkgs, r ++ (specRowsL pkgs).map jrow) := by
  induction pkgs generalizing t r with
  | nil => simp only [List.foldlM_nil, specTotalL, specRowsL, add_zero, List.map_nil,
      List.append_nil]; rfl
  | cons p ps ih =>
    simp only [List.all_cons, Bool.and_eq_true] at h
    rw [List.foldlM_cons, pkgStep_valid p h.1, bind_ok]
    cases hb : entryLocal p with
    | false =>
      rw [if_neg (by simp [hb]), ih h.2]
      simp [specTotalL, specRowsL, hb]
    | true =>
      rw [if_pos rfl, ih h.2]
      by_cases hc : 0 < entryCount p
      · simp [specTotalL, specRowsL, hb, hc, add_assoc, jrow]
      · simp [specTotalL, specRowsL, hb, hc, add_assoc]

/-- On a report of the documented shape, `aggregate` computes exactly the
spec-side aggregation result. -/
theorem aggregate_valid (d : JVal) (h : validReport d = true) :
    aggregate d = .ok (specTotalL (pkgsOf d), (specRowsL (pkgsOf d)).map jrow) := by
  match d, h with
  | .jobj fs, h =>
    unfold aggregate
    cases hp : fs.lookup "packages" with
    | none =>
      rw [show pyGet (JVal.jobj fs) "packages" (.jarr []) =
        Except.ok ((fs.lookup "packages").getD (.jarr [])) from rfl, hp]
      simp only [Option.getD, bind_ok]
      rw [show pyIter (.jarr []) = Except.ok [] from rfl, bind_ok]
      simp [pkgsOf, objLookup, hp, specTotalL, specRowsL]
      rfl
    | some pv =>
      cases pv with
      | jarr pkgs =>
        rw [show pyGet (JVal.jobj fs) "packages" (.jarr []) =
          Except.ok ((fs.lookup "packages").getD (.jarr [])) from rfl, hp]
        simp only [Option.getD, bind_ok]
        rw [show pyIter (.jarr pkgs) = Except.ok pkgs from rfl, bind_ok]
        have hall : pkgs.all validEntry = true := by
          simpa [validReport, hp] using h
        rw [foldl_valid pkgs hall 0 []]
        simp [pkgsOf, objLookup, hp]
      | jnull => simp [validReport, hp] at h
      | jbool b => simp [validReport, hp] at h
      | jint n => simp [validReport, hp] at h
      | jstr s => simp [validReport, hp] at h
      | jobj ofs => simp [validReport, hp] at h

/-- Trichotomy of code-point order on character lists. -/
theorem strLt_trichotomy (as bs : List Char) :
    strLt as bs = true ∨ strLt bs as = true ∨ as = bs := by
  induction as generalizing bs with
  | nil => cases bs <;> simp [strLt]
  | cons a as ih =>
    cases bs with
    | nil => simp [strLt]
    | cons b bs =>
      rcases lt_trichotomy a b with hab | hab | hab
      · left; simp [strLt, hab]
      · subst hab
        rcases ih bs with h | h | h
        · left; simp [strLt, h, lt_irrefl]
        · right; left; simp [strLt, h, lt_irrefl]
        · right; right; rw [h]
      · right; left; simp [strLt, hab]

/-- Transitivity of code-point order on character lists. -/
theorem strLt_trans {as bs cs : List Char} (h1 : strLt as bs = true)
    (h2 : strLt bs cs = true) : strLt as cs = true := by
  induction as generalizing bs cs with
  | nil =>
    cases cs with
    | nil => cases bs <;> simp_all [strLt]
    | cons c cs => simp [strLt]
  | cons a as ih =>
    cases bs with
    | nil => simp [strLt] at h1
    | cons b bs =>
      cases cs with
      | nil => simp [strLt] at h2
      | cons c cs =>
        rcases lt_trichotomy a b with hab | hab | hab
        · rcases lt_trichotomy b c with hbc | hbc | hbc
          · simp [strLt, lt_trans hab hbc]
          · subst hbc; simp [strLt, hab]
          · simp [strLt, hbc, lt_asymm hbc] at h2
        · subst hab
          rcases lt_trichotomy a c with hbc | hbc | hbc
          · simp [strLt, hbc]
          · subst hbc
            simp only [strLt, lt_irrefl, if_false] at h1 h2 ⊢
            exact ih h1 h2
          · simp [strLt, hbc, lt_asymm hbc] at h2
        · simp [strLt, hab, lt_asymm hab] at h1

/-- The tuple comparison Python uses on rows is total. -/
theorem rowLe_total (x y : String × Int) : rowLe x y = true ∨ rowLe y x = true := by
  rcases strLt_trichotomy x.1.toList y.1.toList with h | h | h
  · simp only [String.toList] at h
    left; simp [rowLe, String.toList, h]
  · simp only [String.toList] at h
    right; simp [rowLe, String.toList, h]
  · have hxy : x.1 = y.1 := by
      apply String.ext
      simpa [String.toList] using h
    rcases le_total x.2 y.2 with h2 | h2
    · left; simp [rowLe, hxy, h2]
    · right; simp [rowLe, hxy, h2]

/-- The tuple comparison Python uses on rows is transitive. -/
theorem rowLe_trans {x y z : String × Int} (h1 : rowLe x y = true)
    (h2 : rowLe y z = true) : rowLe x z = true := by
  simp only [rowLe, Bool.or_eq_true, Bool.and_eq_true, beq_iff_eq, decide_eq_true_eq] at h1 h2 ⊢
  rcases h1 with h1 | ⟨h1e, h1c⟩
  · rcases h2 with h2 | ⟨h2e, h2c⟩
    · exact Or.inl (strLt_trans h1 h2)
    · left; rwa [← h2e]
  · rcases h2 with h2 | ⟨h2e, h2c⟩
    · left; rwa [h1e]
    · exact Or.inr ⟨h1e.trans h2e, h1c.trans h2c⟩

/-- Inserting permutes to consing. -/
theorem pyInsert_perm (le : α → α → Bool) (a : α) (l : List α) :
    (pyInsert le a l).Perm (a :: l) := by
  induction l with
  | nil => exact List.Perm.refl _
  | cons b bs ih =>
    by_cases h : le a b = true
    · simp only [pyInsert, h, if_true]
      exact List.Perm.refl _
    · simp only [pyInsert, h, if_false]
      exact List.Perm.trans (List.Perm.cons b ih) (List.Perm.swap a b bs)

/-- The sort output is a permutation of its input. -/
theorem pySorted_perm (le : α → α → Bool) (l : List α) : (pySorted le l).Perm l := by
  induction l with
  | nil => exact List.Perm.refl _
  | cons a as ih =>
    exact List.Perm.trans (pyInsert_perm le a _) (List.Perm.cons a ih)

/-- Membership after insertion. -/
theorem pyInsert_mem {le : α → α → Bool} {a x : α} {l : List α}
    (h : x ∈ pyInsert le a l) : x = a ∨ x ∈ l := by
  induction l with
  | nil =>
    simp only [pyInsert, List.mem_singleton] at h
    exact Or.inl h
  | cons b bs ih =>
    by_cases hle : le a b = true
    · simp only [pyInsert, hle, if_true] at h
      rcases List.mem_cons.mp h with h | h
      · exact Or.inl h
      · exact Or.inr h
    · simp only [pyInsert, hle, if_false] at h
      rcases List.mem_cons.mp h with h | h
      · exact Or.inr (h ▸ List.mem_cons_self _ _)
      · rcases ih h with h | h
        · exact Or.inl h
        · exact Or.inr (List.mem_cons_of_mem _ h)

/-- Inserting into a sorted list keeps it sorted, for total transitive
comparisons. -/
theorem pyInsert_pairwise (le : α → α → Bool)
    (htot : ∀ x y, le x y = true ∨ le y x = true)
    (htrans : ∀ {x y z}, le x y = true → le y z = true → le x z = true)
    (a : α) (l : List α) (h : List.Pairwise (fun x y => le x y = true) l) :
    List.Pairwise (fun x y => le x y = true) (pyInsert le a l) := by
  induction l with
  | nil => simp [pyInsert]
  | cons b bs ih =>
    rcases List.pairwise_cons.mp h with ⟨hb, hbs⟩
    by_cases hle : le a b = true
    · simp only [pyInsert, hle, if_true]
      refine List.pairwise_cons.mpr ⟨?_, h⟩
      intro z hz
      rcases List.mem_cons.mp hz with hz | hz
      · exact hz ▸ hle
      · exact htrans hle (hb z hz)
    · simp only [pyInsert, hle, if_false]
      refine List.pairwise_cons.mpr ⟨?_, ih hbs⟩
      intro z hz
      rcases pyInsert_mem hz with hz | hz
      · subst hz
        rcases htot z b with h1 | h1
        · exact absurd h1 hle
        · exact h1
      · exact hb z hz

/-- The sort output is sorted, for total transitive comparisons. -/
theorem pySorted_pairwise (le : α → α → Bool)
    (htot : ∀ x y, le x y = true ∨ le y x = true)
    (htrans : ∀ {x y z}, le x y = true → le y z = true → le x z = true)
    (l : List α) :
    List.Pairwise (fun x y => le x y = true) (pySorted le l) := by
  induction l with
  | nil => simp [pySorted]
  | cons a as ih => exact pyInsert_pairwise le htot htrans a _ ih

/-- String-named rows round-trip through the JSON wrapping. -/
theorem asStrRows_map (rs : List (String × Int)) : asStrRows (rs.map jrow) = some rs := by
  induction rs with
  | nil => rfl
  | cons r rs ih => simp [asStrRows, jrow, ih]

/-- Every value of a well-typed entry's `used` mapping is a non-negative
integer. -/
theorem usedFields_nn (pkg : JVal) (h : validEntry pkg = true) :
    ∀ kv ∈ usedFields pkg, isNNInt kv.2 = true := by
  match pkg, h with
  | .jobj fs, h =>
    simp only [validEntry, Bool.and_eq_true] at h
    obtain ⟨⟨hL, hP⟩, hU⟩ := h
    intro kv hkv
    cases hu : fs.lookup "unsafety" with
    | none => simp [usedFields, objLookup, hu] at hkv
    | some uv =>
      simp only [usedFields, objLookup, hu] at hkv
      cases uv with
      | jobj ufs =>
        cases huu : ufs.lookup "used" with
        | none => simp [huu] at hkv
        | some uuv =>
          simp only [huu] at hkv
          cases uuv with
          | jobj usedfs =>
            have : validUsed (ufs.lookup "used") = true := by
              simpa [validUnsafety, hu] using hU
            rw [huu] at this
            simp only [validUsed, List.all_eq_true] at this
            exact this kv (by simpa using hkv)
          | jnull => simp at hkv
          | jbool b => simp at hkv
          | jint n => simp at hkv
          | jstr s => simp at hkv
          | jarr xs => simp at hkv
      | jnull => simp [validUnsafety, hu] at hU
      | jbool b => simp [validUnsafety, hu] at hU
      | jint n => simp [validUnsafety, hu] at hU
      | jstr s => simp [validUnsafety, hu] at hU
      | jarr xs => simp [validUnsafety, hu] at hU

/-- A well-typed entry's count is non-negative. -/
theorem entryCount_nonneg (pkg : JVal) (h : validEntry pkg = true) :
    0 ≤ entryCount pkg := by
  apply List.sum_nonneg
  intro x hx
  obtain ⟨kv, hkv, rfl⟩ := List.mem_map.mp hx
  have := usedFields_nn pkg h kv hkv
  match kv.2, this with
  | .jint n, hn => simpa [toIntD] using (by simpa [isNNInt] using hn : (0:Int) ≤ n)

/-- The spec-side total over well-typed entries is non-negative. -/
theorem specTotalL_nonneg (pkgs : List JVal) (h : pkgs.all validEntry = true) :
    0 ≤ specTotalL pkgs := by
  induction pkgs with
  | nil => simp [specTotalL]
  | cons p ps ih =>
    simp only [List.all_cons, Bool.and_eq_true] at h
    have h1 : (0:Int) ≤ (if entryLocal p then entryCount p else 0) := by
      by_cases hl : entryLocal p
      · simpa [hl] using entryCount_nonneg p h.1
      · simp [hl]
    have h2 := ih h.2
    simp only [specTotalL]
    omega

/-- Over well-typed entries, a zero total forces an empty row list. -/
theorem specRowsL_eq_nil (pkgs : List JVal) (h : pkgs.all validEntry = true)
    (h0 : specTotalL pkgs = 0) : specRowsL pkgs = [] := by
  induction pkgs with
  | nil => rfl
  | cons p ps ih =>
    simp only [List.all_cons, Bool.and_eq_true] at h
    have h1 : (0:Int) ≤ (if entryLocal p then entryCount p else 0) := by
      by_cases hl : entryLocal p
      · simpa [hl] using entryCount_nonneg p h.1
      · simp [hl]
    have h2 := specTotalL_nonneg ps h.2
    simp only [specTotalL] at h0
    have hhead : (if entryLocal p then entryCount p else 0) = 0 := by omega
    have htail : specTotalL ps = 0 := by omega
    simp only [specRowsL, ih h.2 htail, List.append_nil]
    by_cases hl : entryLocal p
    · have hc : entryCount p = 0 := by simpa [hl] using hhead
      simp [hl, hc]
    · simp [hl]

/-- A well-shaped report's packages are all well-typed entries. -/
theorem validReport_pkgs (d : JVal) (h : validReport d = true) :
    (pkgsOf d).all validEntry = true := by
  match d, h with
  | .jobj fs, h =>
    cases hp : fs.lookup "packages" with
    | none => simp [pkgsOf, objLookup, hp]
    | some pv =>
      cases pv with
      | jarr pkgs => simpa [pkgsOf, objLookup, hp, validReport, hp] using
          (by simpa [validReport, hp] using h : pkgs.all validEntry = true)
      | jnull => simp [validReport, hp] at h
      | jbool b => simp [validReport, hp] at h
      | jint n => simp [validReport, hp] at h
      | jstr s => simp [validReport, hp] at h
      | jobj ofs => simp [validReport, hp] at h

/-! ### Claims -/

/-- C1, counterexample.  The claim says a Package Entry with `is_local = false`
contributes its summed `used` count to `total`; on `c1data` (one non-local
entry with count 5) it therefore predicts a total of 5.  The code skips
non-local entries before the `total += count` line, so the aggregation yields
total 0 and in particular never yields total 5. -/
theorem C1_counterexample : aggregate c1data = .ok (0, []) ∧
    ¬ ∃ rows, aggregate c1data = .ok (5, rows) := by
  refine ⟨rfl, ?_⟩
  rintro ⟨rows, h⟩
  rw [show aggregate c1data = .ok (0, []) from rfl] at h
  simp at h

/-- C1, amended: for every parsed Analyzer Report of the documented shape, the
aggregation accumulates an entry's summed `unsafety.used` count into `total`
only when its `is_local` flag is true, and `rows` records exactly the local
entries whose count is strictly positive; an entry with `is_local = false`
contributes neither to `total` nor to `rows` (second conjunct: the loop body
leaves the accumulator untouched on non-local entries). -/
theorem C1_amended (d : JVal) (hv : validReport d = true) :
    aggregate d = .ok (specTotalL (pkgsOf d), (specRowsL (pkgsOf d)).map jrow) ∧
    (∀ pkg t r, validEntry pkg = true → entryLocal pkg = false →
      pkgStep (t, r) pkg = .ok (t, r)) := by
  refine ⟨aggregate_valid d hv, ?_⟩
  intro pkg t r hval hloc
  rw [pkgStep_valid pkg hval t r, hloc]
  simp

/-- C1, witness: on the spec §8 example (local `core` count 3, non-local
`vendor` count 5) the amended claim evaluates to total 3 with the single row
`core`, and the loop body ignores a non-local entry. -/
theorem C1_amended_witness : validReport exReport = true ∧
    aggregate exReport = .ok (3, [(JVal.jstr "core", 3)]) ∧
    pkgStep (0, []) (.jobj [("is_local", .jbool false)]) = .ok (0, []) := by
  refine ⟨by decide, ?_, ?_⟩
  · exact ((C1_amended exReport (by decide)).1).trans rfl
  · exact (C1_amended exReport (by decide)).2 _ 0 [] (by decide) (by decide)

/-- C2: a missing top-level `packages` sequence is treated as empty, yielding
`total = 0` and no rows rather than an error; and for every well-typed entry
the loop computes its per-package count as `entryCount` (the sum of all values
of its `unsafety.used` mapping, a missing `unsafety`, missing `used`, or empty
mapping contributing zero) and its row name as `entryName` (defaulting to
`"?"` when `package.name` is absent). -/
theorem C2_entry_count :
    (∀ dfs : List (String × JVal), dfs.lookup "packages" = none →
        aggregate (.jobj dfs) = .ok (0, [])) ∧
    (∀ pkg t r, validEntry pkg = true → entryLocal pkg = true →
        pkgStep (t, r) pkg =
          .ok (t + entryCount pkg,
               r ++ (if 0 < entryCount pkg then [jrow (entryName pkg, entryCount pkg)]
                     else []))) := by
  constructor
  · intro dfs h
    unfold aggregate
    rw [show pyGet (.jobj dfs) "packages" (.jarr []) =
      Except.ok ((dfs.lookup "packages").getD (.jarr [])) from rfl, h]
    simp only [Option.getD, bind_ok]
    rw [show pyIter (.jarr []) = Except.ok [] from rfl, bind_ok]
    rfl
  · intro pkg t r hv hl
    rw [pkgStep_valid pkg hv t r, hl, if_pos rfl]

/-- C2, witness: a report without `packages` aggregates to `(0, [])`, and a
local entry with `used = \x7b"a": 1, "b": 2\x7d` and no `package.name`
contributes count 3 under the name `"?"`. -/
theorem C2_entry_count_witness :
    aggregate (.jobj [("other", .jint 1)]) = .ok (0, []) ∧
    pkgStep (2, []) (.jobj [("is_local", .jbool true),
        ("unsafety", .jobj [("used", .jobj [("a", .jint 1), ("b", .jint 2)])])]) =
      .ok (5, [(JVal.jstr "?", 3)]) := by
  constructor
  · exact C2_entry_count.1 _ rfl
  · exact (C2_entry_count.2 _ 2 [] (by decide) (by decide)).trans rfl

/-- C3: whenever standard input strips to the empty string, the program prints
the empty-input diagnostic on standard error, prints nothing on standard
output, leaves the baseline file untouched, and exits with status 1 — for
every parser behaviour and every baseline-file state, so no parsing,
aggregation, or baseline write takes place. -/
theorem C3_empty_input (args : Args) (w : World) (h : pyStrip w.stdin = "") :
    runMain args w = ⟨[], emptyErrLines, .exit 1, w.fs⟩ := by
  simp [runMain, h]

/-- C3, witness: whitespace-only input under `--check` with an existing
baseline file. -/
theorem C3_empty_input_witness :
    runMain ⟨some "base"⟩ ⟨" \t\n", parseFail, some "7"⟩ =
      ⟨[], emptyErrLines, .exit 1, some "7"⟩ :=
  C3_empty_input _ _ (by decide)

/-- C4: whenever the stripped input is non-empty but the JSON parser rejects
it with message `e`, the program prints the malformed-input diagnostic — the
parser's failure reason followed by the `repr` of the first 200 characters of
the raw input — on standard error, prints nothing on standard output, and
exits with status 1. -/
theorem C4_malformed_input (args : Args) (w : World) (e : String)
    (h1 : ¬ pyStrip w.stdin = "") (h2 : w.parse w.stdin = .error e) :
    runMain args w = ⟨[], [invalidLine1 e, invalidLine2 w.stdin], .exit 1, w.fs⟩ := by
  simp [runMain, h1, h2]

/-- C4, witness: the input `not valid json` with the parser's empty-prefix
message. -/
theorem C4_malformed_input_witness :
    runMain ⟨none⟩ ⟨"not valid json", parseFail, none⟩ =
      ⟨[], [invalidLine1 "Expecting value: line 1 column 1 (char 0)",
            invalidLine2 "not valid json"], .exit 1, none⟩ :=
  C4_malformed_input _ _ _ (by decide) rfl

/-- C5: with `--check` naming an existing file whose stripped contents parse
as the integer `baseline`, a total exceeding the baseline prints the FAIL and
hint lines and exits 1, while a total less than or equal to the baseline
(including equality) prints the OK line and exits 0; the baseline file is
unchanged in both cases. -/
theorem C5_baseline_check (w : World) (p s : String) (d : JVal) (t : Int)
    (rows : List (JVal × Int)) (lns : List String) (b : Int)
    (hne : ¬ pyStrip w.stdin = "") (hp : w.parse w.stdin = .ok d)
    (ha : aggregate d = .ok (t, rows)) (hr : renderRows rows = .ok lns)
    (hpath : ¬ p = "") (hfs : w.fs = some s)
    (hb : pyParseInt (pyStrip s) = some b) :
    (b < t → runMain ⟨some p⟩ w =
      ⟨headerLine t :: (lns ++ [failLine t b, hintLine t]), [], .exit 1, some s⟩) ∧
    (t ≤ b → runMain ⟨some p⟩ w =
      ⟨headerLine t :: (lns ++ [okLine t b]), [], .exit 0, some s⟩) := by
  constructor
  · intro hgt
    simp [runMain, hne, hp, ha, hr, hpath, baselineCheck, hfs, hb, hgt]
  · intro hle
    simp [runMain, hne, hp, ha, hr, hpath, baselineCheck, hfs, hb, not_lt.mpr hle]

/-- C5, witness: total 3 against baseline 5 passes with the OK line and exit
0; total 3 against baseline 2 fails with the FAIL and hint lines and exit
1. -/
theorem C5_baseline_check_witness :
    runMain ⟨some ".geiger-baseline"⟩ ⟨"x", parseAs exReport, some "5"⟩ =
      ⟨["Workspace unsafe count: 3", "  core: 3", "OK: 3 <= baseline 5"], [],
        .exit 0, some "5"⟩ ∧
    runMain ⟨some ".geiger-baseline"⟩ ⟨"x", parseAs exReport, some "2"⟩ =
      ⟨["Workspace unsafe count: 3", "  core: 3", "FAIL: count 3 exceeds baseline 2",
        "  If this is intentional: update .geiger-baseline with 3"], [],
        .exit 1, some "2"⟩ := by
  constructor
  · exact ((C5_baseline_check ⟨"x", parseAs exReport, some "5"⟩ ".geiger-baseline" "5"
      exReport 3 [(JVal.jstr "core", 3)] ["  core: 3"] 5 (by decide) rfl rfl rfl
      (by decide) rfl rfl).2 (by decide)).trans rfl
  · exact ((C5_baseline_check ⟨"x", parseAs exReport, some "2"⟩ ".geiger-baseline" "2"
      exReport 3 [(JVal.jstr "core", 3)] ["  core: 3"] 2 (by decide) rfl rfl rfl
      (by decide) rfl rfl).1 (by decide)).trans rfl

/-- C6: with `--check` naming a missing file, the program prints the warning
line, writes the decimal form of `total` as the file's entire contents, and
exits with status 0. -/
theorem C6_baseline_missing (w : World) (p : String) (d : JVal) (t : Int)
    (rows : List (JVal × Int)) (lns : List String)
    (hne : ¬ pyStrip w.stdin = "") (hp : w.parse w.stdin = .ok d)
    (ha : aggregate d = .ok (t, rows)) (hr : renderRows rows = .ok lns)
    (hpath : ¬ p = "") (hfs : w.fs = none) :
    runMain ⟨some p⟩ w =
      ⟨headerLine t :: (lns ++ [warnLine t p]), [], .exit 0, some (toString t)⟩ := by
  simp [runMain, hne, hp, ha, hr, hpath, baselineCheck, hfs]

/-- C6, witness: total 3, no baseline file: the warning line is printed, the
file is created containing `3`, exit status 0. -/
theorem C6_baseline_missing_witness :
    runMain ⟨some ".geiger-baseline"⟩ ⟨"x", parseAs exReport, none⟩ =
      ⟨["Workspace unsafe count: 3", "  core: 3",
        "WARNING: baseline file not found; writing 3 to .geiger-baseline"], [],
        .exit 0, some "3"⟩ :=
  (C6_baseline_missing ⟨"x", parseAs exReport, none⟩ ".geiger-baseline" exReport 3
    [(JVal.jstr "core", 3)] ["  core: 3"] (by decide) rfl rfl rfl (by decide) rfl).trans rfl

/-- C7, counterexample.  The claim says rows sharing a name keep their input
encounter order as the secondary ordering.  On `c7data`, the rows are
encountered as `("a", 5)` then `("a", 3)`, so the claim predicts the lines
`  a: 5` then `  a: 3`; the code sorts the `(name, count)` tuples and prints
`  a: 3` before `  a: 5`. -/
theorem C7_counterexample :
    (runMain ⟨none⟩ w7).stdout = ["Workspace unsafe count: 8", "  a: 3", "  a: 5"] ∧
    (runMain ⟨none⟩ w7).stdout ≠ ["Workspace unsafe count: 8", "  a: 5", "  a: 3"] := by
  refine ⟨rfl, ?_⟩
  rw [show (runMain ⟨none⟩ w7).stdout = ["Workspace unsafe count: 8", "  a: 3", "  a: 5"]
    from rfl]
  decide

/-- C7, amended: the printed per-package lines are the rows sorted by the full
`(name, count)` tuple — lexicographically by name with ties broken by
ascending count (`rowLe`) — each formatted as two spaces, the name, a colon
and space, and the count; the displayed list is a permutation of the computed
rows and is `rowLe`-sorted. -/
theorem C7_amended (rows : List (String × Int)) :
    renderRows (rows.map jrow) = .ok ((pySorted rowLe rows).map fmtRow) ∧
    (pySorted rowLe rows).Perm rows ∧
    List.Pairwise (fun x y => rowLe x y = true) (pySorted rowLe rows) := by
  refine ⟨?_, pySorted_perm _ _,
    pySorted_pairwise _ rowLe_total (fun h1 h2 => rowLe_trans h1 h2) rows⟩
  simp [renderRows, asStrRows_map]

/-- C8: for every report of the documented shape whose computed total is 0,
with no `--check` flag, standard output is exactly the single line
`Workspace unsafe count: 0` with no package lines (and the run exits 0
leaving the file system untouched). -/
theorem C8_zero_total (w : World) (d : JVal) (rows : List (JVal × Int))
    (hne : ¬ pyStrip w.stdin = "") (hp : w.parse w.stdin = .ok d)
    (hv : validReport d = true) (h0 : aggregate d = .ok (0, rows)) :
    runMain ⟨none⟩ w = ⟨["Workspace unsafe count: 0"], [], .exit 0, w.fs⟩ := by
  have hagg := aggregate_valid d hv
  rw [h0] at hagg
  have hpair := Except.ok.inj hagg
  have ht : specTotalL (pkgsOf d) = 0 := (congrArg Prod.fst hpair).symm
  have hrows : specRowsL (pkgsOf d) = [] :=
    specRowsL_eq_nil _ (validReport_pkgs d hv) ht
  have h0' : aggregate d = .ok (0, []) := by
    rw [aggregate_valid d hv, ht, hrows]
    rfl
  have hr : renderRows [] = .ok [] := rfl
  simp [runMain, hne, hp, h0', hr, headerLine]
  rfl

/-- C8, witness: a local entry with an empty `used` mapping plus a non-local
entry give total 0 and the lone header line. -/
theorem C8_zero_total_witness :
    runMain ⟨none⟩ ⟨"x", parseAs c8data, some "1"⟩ =
      ⟨["Workspace unsafe count: 0"], [], .exit 0, some "1"⟩ :=
  C8_zero_total _ _ [] (by decide) rfl (by decide) rfl

/-- C9: with `--check` naming an existing file whose stripped contents parse
as an integer, the run leaves the baseline file's contents unchanged, in both
the pass and the fail outcome; only the missing-file branch writes. -/
theorem C9_baseline_frame (w : World) (p s : String) (d : JVal) (t : Int)
    (rows : List (JVal × Int)) (lns : List String) (b : Int)
    (hne : ¬ pyStrip w.stdin = "") (hp : w.parse w.stdin = .ok d)
    (ha : aggregate d = .ok (t, rows)) (hr : renderRows rows = .ok lns)
    (hpath : ¬ p = "") (hfs : w.fs = some s)
    (hb : pyParseInt (pyStrip s) = some b) :
    (runMain ⟨some p⟩ w).fs = w.fs := by
  by_cases hbt : b < t
  · simp [runMain, hne, hp, ha, hr, hpath, baselineCheck, hfs, hb, hbt]
  · simp [runMain, hne, hp, ha, hr, hpath, baselineCheck, hfs, hb, hbt]

/-- C9, witness: the pass outcome of total 3 against baseline 5 leaves the
file containing `5`. -/
theorem C9_baseline_frame_witness :
    (runMain ⟨some ".geiger-baseline"⟩ ⟨"x", parseAs exReport, some "5"⟩).fs = some "5" :=
  C9_baseline_frame _ ".geiger-baseline" "5" exReport 3 [(JVal.jstr "core", 3)]
    ["  core: 3"] 5 (by decide) rfl rfl rfl (by decide) rfl rfl

/-- C10: when the parsed document's root is not a mapping, `data.get` raises
`AttributeError`: the run terminates as an unhandled fault with nothing
printed on either stream — in particular before the aggregate line — and the
document is not treated as an empty packages sequence. -/
theorem C10_non_mapping_root (args : Args) (w : World) (d : JVal)
    (h1 : ¬ pyStrip w.stdin = "") (h2 : w.parse w.stdin = .ok d)
    (h3 : isObj d = false) :
    runMain args w = ⟨[], [], .fault (.attributeError "get"), w.fs⟩ := by
  have hagg : aggregate d = .error (.attributeError "get") := by
    cases d with
    | jobj fs => simp [isObj] at h3
    | jnull => rfl
    | jbool b => rfl
    | jint n => rfl
    | jstr s => rfl
    | jarr xs => rfl
  simp [runMain, h1, h2, hagg]

/-- C10, witness: a JSON array root faults with nothing printed. -/
theorem C10_non_mapping_root_witness :
    runMain ⟨none⟩ ⟨"[1]", parseAs (.jarr [.jint 1]), none⟩ =
      ⟨[], [], .fault (.attributeError "get"), none⟩ :=
  C10_non_mapping_root _ _ _ (by decide) rfl (by decide)

end Geiger
